import Mathlib

/-!
# docserver

A shallow embedding of `src/docserver.cc` (and `src/SafeMap.h`), the sequential TCP file
server, followed by theorems about its request handling.

Conventions of the embedding.

* A `std::string` is a `List Char`, one `Char` per byte.
* The operating system is a script. Every call of `recv`, `send` and `accept` takes the next
  entry of its script as its outcome; a call whose script is empty never returns (the call
  blocks for ever), and then the function that made it does not return either: its `ret` is
  `none`.
* Every system call that returns is recorded as an `Event`, in call order.
* What the program writes to `std::cout` and `std::cerr` is not modelled.
-/

namespace Docserver

/-- A `std::string`: its bytes in order. -/
abbrev Str := List Char

/-! ## Data model -/

/-- The enumeration `ErrorCode`. The last name is spelled with `Ñ` in the source. -/
inductive ErrorCode
  | SUCCESS
  | ERROR_ARGUMENTOS
  | ERROR_OPCION_DESCONOCIDA
  | ERROR_SISTEMA
  | ERROR_PERMISOS
  | ERROR_NO_ENCONTRADO
  | ERROR_NO_SE_PUEDE_OBTENER_TAMANO
  | ERROR_NO_ENCONTRADO_SOCKET
  | ERROR_SOCKET_NO_ESCUCHANDO
  | ERROR_LEVE_AL_ENVIAR
  | ERROR_AL_ENVIAR
  | ERROR_VARIABLE_NO_DEFINIDA
  | ERROR_PETICION_VACIA
  | ERROR_AL_ABRIR_ARCHIVO
  | ERROR_AL_MAPEAR_ARCHIVO
  | ERROR_AL_OBTENER_EL_TAMANO_ARCHIVO
  deriving DecidableEq, Repr

/-- The numeric value of an `ErrorCode`, as the enumeration assigns it. -/
def ErrorCode.toNat : ErrorCode → Nat
  | .SUCCESS => 0
  | .ERROR_ARGUMENTOS => 1
  | .ERROR_OPCION_DESCONOCIDA => 2
  | .ERROR_SISTEMA => 3
  | .ERROR_PERMISOS => 4
  | .ERROR_NO_ENCONTRADO => 5
  | .ERROR_NO_SE_PUEDE_OBTENER_TAMANO => 6
  | .ERROR_NO_ENCONTRADO_SOCKET => 7
  | .ERROR_SOCKET_NO_ESCUCHANDO => 8
  | .ERROR_LEVE_AL_ENVIAR => 9
  | .ERROR_AL_ENVIAR => 10
  | .ERROR_VARIABLE_NO_DEFINIDA => 11
  | .ERROR_PETICION_VACIA => 12
  | .ERROR_AL_ABRIR_ARCHIVO => 13
  | .ERROR_AL_MAPEAR_ARCHIVO => 14
  | .ERROR_AL_OBTENER_EL_TAMANO_ARCHIVO => 15

/-- The structure `Args`, with the defaults of the source. -/
structure Args where
  verbose : Bool := false
  help : Bool := false
  archivo : Str := []
  directorio : Str := []
  puerto : Int := 8080
  deriving DecidableEq, Repr

/-- The class `SafeMap`: the mapped view and its size. The mapping address is not modelled. -/
structure SafeMap where
  sv_ : Str
  size_ : Nat
  deriving DecidableEq, Repr

/-- The method `SafeMap::get`. -/
def SafeMap.get (m : SafeMap) : Str := m.sv_

/-! ## The environment -/

/-- The outcome of one `recv` call: the bytes it stored in the buffer (their number is the
return value, `0` for an orderly shutdown by the peer), or `-1` with `errno` being
`ECONNRESET` or not. -/
inductive RecvResult
  | bytes (b : Str)
  | error (econnreset : Bool)
  deriving DecidableEq, Repr

/-- The outcome of one `send` call: the socket takes up to `cap` of the bytes offered, so
that the call returns `min cap len`; or the call returns `-1` with `errno` being
`ECONNRESET` or not. -/
inductive SendResult
  | accept (cap : Nat)
  | error (econnreset : Bool)
  deriving DecidableEq, Repr

/-- What the file system does with a path in `read_file`: `open` fails, `fstat` fails,
`mmap` fails, or the file is mapped with the content given. -/
inductive FileResult
  | open_fails
  | fstat_fails
  | mmap_fails
  | mapped (content : Str)
  deriving DecidableEq, Repr

/-- The system calls the server makes, as they return. -/
inductive Event
  | make_socket (port : Nat) (ok : Bool)
  | listen (ok : Bool)
  | accept (ok : Bool)
  | recv (r : RecvResult)
  | read_file (path : Str)
  | send (data : Str) (r : SendResult)
  | close_client
  | close_server
  deriving DecidableEq, Repr

/-- The bytes a `send` call hands to the socket: the first `min cap len` of those offered. -/
def accepted (data : Str) : SendResult → Str
  | .accept cap => data.take cap
  | .error _ => []

/-- The bytes written to the socket by a run, in order. -/
def written : List Event → Str
  | [] => []
  | .send data r :: evs => accepted data r ++ written evs
  | _ :: evs => written evs

/-- The data offered to each `send` call of a run, in call order. -/
def sent_data : List Event → List Str
  | [] => []
  | .send data _ :: evs => data :: sent_data evs
  | _ :: evs => sent_data evs

/-- The number of `recv` calls of a run. -/
def recv_count : List Event → Nat
  | [] => 0
  | .recv _ :: evs => recv_count evs + 1
  | _ :: evs => recv_count evs

/-- The number of `accept` calls of a run. -/
def accept_count : List Event → Nat
  | [] => 0
  | .accept _ :: evs => accept_count evs + 1
  | _ :: evs => accept_count evs

/-! ## `es_direccion` -/

/-- The literal `GET_prefix` of `es_direccion`. -/
def GET_prefix : Str := "GET ".toList

/-- The search of `std::string::find` from position `pos`: the index of the first
occurrence of `pat`, `none` for `npos`. -/
def find_from (pat : Str) : Str → Nat → Option Nat
  | [], pos => if pat.isPrefixOf [] then some pos else none
  | c :: t, pos => if pat.isPrefixOf (c :: t) then some pos else find_from pat t (pos + 1)

/-- The method `std::string::find`. -/
def find (str pat : Str) : Option Nat := find_from pat str 0

/-- The function `es_direccion`: the string as it leaves it (the argument is a reference),
and its result. -/
def es_direccion (str : Str) : Bool × Str :=
  let str := if find str GET_prefix = some 0 then str.drop (List.length GET_prefix) else str
  (str.any (fun c => c == '/' || c == '\\'), str)

/-! ## `readClientRequest` and `read_file` -/

/-- The function `readClientRequest` on the outcome of its `recv` call: the code it returns
and `archivo` as it leaves it. The buffer is assigned as a C string, so it ends at the
first NUL byte. -/
def readClientRequest (r : RecvResult) (archivo : Str) : ErrorCode × Str :=
  match r with
  | .error _ => (.ERROR_PETICION_VACIA, archivo)
  | .bytes b =>
    let buffer := b.take 1023
    if buffer.length ≤ 0 then (.ERROR_PETICION_VACIA, archivo)
    else
      let archivo := buffer.takeWhile (fun c => c != '\x00')
      if archivo.isEmpty then (.ERROR_PETICION_VACIA, archivo) else (.SUCCESS, archivo)

/-- The function `read_file` on a file system. -/
def read_file (fs : Str → FileResult) (path : Str) : SafeMap × ErrorCode :=
  match fs path with
  | .open_fails => (⟨[], 0⟩, .ERROR_AL_ABRIR_ARCHIVO)
  | .fstat_fails => (⟨[], 0⟩, .ERROR_AL_OBTENER_EL_TAMANO_ARCHIVO)
  | .mmap_fails => (⟨[], 0⟩, .ERROR_AL_MAPEAR_ARCHIVO)
  | .mapped content => (⟨content, content.length⟩, .SUCCESS)

/-! ## `send_response` -/

/-- A run of a function that sends: the events, the `send` script left, and the value
returned (`none` when a call never returned). -/
structure SendRun where
  events : List Event
  sends : List SendResult
  ret : Option ErrorCode
  deriving DecidableEq, Repr

/-- The constant `chunk_size` of `send_response`. -/
def chunk_size : Nat := 1024

/-- The `while (offset < body_size)` loop of `send_response`, from `offset`. -/
def send_body (body : Str) : List SendResult → Nat → SendRun
  | [], offset =>
    if offset < body.length then ⟨[], [], none⟩ else ⟨[], [], some .SUCCESS⟩
  | r :: rest, offset =>
    if offset < body.length then
      let remaining := body.length - offset
      let to_send := if remaining > chunk_size then chunk_size else remaining
      let data := (body.drop offset).take to_send
      match r with
      | .error _ => ⟨[.send data r], rest, some .ERROR_AL_ENVIAR⟩
      | .accept cap =>
        let chunk_sent := min cap to_send
        let k := send_body body rest (offset + chunk_sent)
        ⟨.send data r :: k.events, k.sends, k.ret⟩
    else ⟨[], r :: rest, some .SUCCESS⟩

/-- A `send` call whose return value the source does not look at. -/
def send_unchecked (sends : List SendResult) (data : Str) :
    Option (List Event × List SendResult) :=
  match sends with
  | [] => none
  | r :: rest => some ([.send data r], rest)

/-- The trace line `send_response` sends first when verbose. -/
def open_trace (archivo : Str) : Str :=
  "open: se abre el archivo \"".toList ++ archivo ++ "\"\n".toList

/-- The trace lines `send_response` sends last when verbose. -/
def close_trace (archivo : Str) (body_size : Nat) : Str :=
  "\nread: se leen ".toList ++ Nat.toDigits 10 body_size ++ " bytes de \"".toList ++ archivo
    ++ "\"\n".toList ++ "close: se cierra el archivo \"".toList ++ archivo ++ "\"\n".toList

/-- The function `send_response`. -/
def send_response (sends : List SendResult) (header : Str) (args : Args) (body : Str) :
    SendRun :=
  let response := header ++ "\n".toList
  match (if args.verbose then send_unchecked sends (open_trace args.archivo)
         else some ([], sends)) with
  | none => ⟨[], [], none⟩
  | some (ev1, sends1) =>
    match sends1 with
    | [] => ⟨ev1, [], none⟩
    | r :: sends2 =>
      match r with
      | .error econnreset =>
        ⟨ev1 ++ [.send response r], sends2,
          some (if econnreset then .ERROR_LEVE_AL_ENVIAR else .ERROR_AL_ENVIAR)⟩
      | .accept _ =>
        let b := send_body body sends2 0
        match b.ret with
        | some .SUCCESS =>
          match (if args.verbose then send_unchecked b.sends (close_trace args.archivo body.length)
                 else some ([], b.sends)) with
          | none => ⟨ev1 ++ .send response r :: b.events, [], none⟩
          | some (ev3, sends3) =>
            ⟨ev1 ++ .send response r :: b.events ++ ev3, sends3, some .SUCCESS⟩
        | other => ⟨ev1 ++ .send response r :: b.events, b.sends, other⟩

/-! ## `handle_client` -/

/-- How one pass through the body of the `while (true)` loop of `handle_client` ends: in a
call that never returns, with a `return`, or at the end of the body (the loop goes on). -/
inductive Step
  | blocked
  | returned (e : ErrorCode)
  | next
  deriving DecidableEq, Repr

/-- One pass through the loop body of `handle_client`. -/
structure RequestRun where
  events : List Event
  sends : List SendResult
  args : Args
  step : Step
  deriving DecidableEq, Repr

/-- The call `args.archivo.erase(std::remove(..., '\n'), ...)`. -/
def remove_newlines (archivo : Str) : Str := archivo.filter (fun c => c != '\n')

/-- The header of the 200 response, as `handle_client` builds it. -/
def ok_header (verbose : Bool) (content : Str) : Str :=
  if verbose then "HTTP/1.1 200 OK\n".toList
  else "HTTP/1.1 200 OK\nContent-Length: ".toList ++ Nat.toDigits 10 content.length
    ++ "\n".toList

/-- The body of the `while (true)` loop of `handle_client`, for the request whose `recv`
call has outcome `r`. The two branches on `es_direccion` differ in the path only, and are
written once here. The return value of `send_response` is dropped, as in the source. -/
def handle_request (fs : Str → FileResult) (r : RecvResult) (sends : List SendResult)
    (args : Args) : RequestRun :=
  let rd := readClientRequest r args.archivo
  let args := { args with archivo := rd.2 }
  if rd.1 ≠ .SUCCESS then ⟨[.recv r, .close_client], sends, args, .returned rd.1⟩
  else
    let args := { args with archivo := remove_newlines args.archivo }
    if args.archivo = "close".toList then
      ⟨[.recv r, .close_client], sends, args, .returned .SUCCESS⟩
    else if args.archivo.isEmpty then
      let s := send_response sends "400 Bad Request\n".toList args []
      match s.ret with
      | none => ⟨.recv r :: s.events, s.sends, args, .blocked⟩
      | some _ =>
        ⟨.recv r :: s.events ++ [.close_client], s.sends, args, .returned .ERROR_ARGUMENTOS⟩
    else
      let content : Str := []
      let error_message := "HTTP/1.1 404 Not Found\n".toList
      let dir := es_direccion args.archivo
      let args := { args with archivo := dir.2 }
      let path := if dir.1 then args.archivo else args.directorio ++ "/".toList ++ args.archivo
      let rf := read_file fs path
      if rf.2 ≠ .SUCCESS then
        let s := send_response sends error_message args content
        match s.ret with
        | none => ⟨.recv r :: .read_file path :: s.events, s.sends, args, .blocked⟩
        | some _ =>
          ⟨.recv r :: .read_file path :: s.events ++ [.close_client], s.sends, args,
            .returned rf.2⟩
      else
        let content := rf.1.get
        let header := ok_header args.verbose content
        let s := send_response sends header args (content ++ "\n".toList)
        match s.ret with
        | none => ⟨.recv r :: .read_file path :: s.events, s.sends, args, .blocked⟩
        | some _ => ⟨.recv r :: .read_file path :: s.events, s.sends, args, .next⟩

/-- A run of `handle_client`: the events, `args` as it leaves them, and the code returned
(`none` when a call never returned). -/
structure ClientRun where
  events : List Event
  args : Args
  ret : Option ErrorCode
  deriving DecidableEq, Repr

/-- The function `handle_client`, on the outcomes of the `recv` calls and of the `send`
calls of the connection. -/
def handle_client (fs : Str → FileResult) :
    List RecvResult → List SendResult → Args → ClientRun
  | [], _, args => ⟨[], args, none⟩
  | r :: recvs, sends, args =>
    let s := handle_request fs r sends args
    match s.step with
    | .blocked => ⟨s.events, s.args, none⟩
    | .returned e => ⟨s.events, s.args, some e⟩
    | .next =>
      let k := handle_client fs recvs s.sends s.args
      ⟨s.events ++ k.events, k.args, k.ret⟩

/-! ## `start_server` -/

/-- The peer of one accepted connection: the outcomes of the `recv` calls and of the `send`
calls on its socket. -/
structure Conn where
  recvs : List RecvResult
  sends : List SendResult
  deriving DecidableEq, Repr

/-- The network during one run of the server: whether `make_socket` succeeds (`socket` and
`bind`), whether `listen` succeeds, and the outcomes of the `accept` calls (`none` for a
failed `accept`). -/
structure Net where
  socket_ok : Bool
  listen_ok : Bool
  accepts : List (Option Conn)
  deriving DecidableEq, Repr

/-- A run of the server: the events, `args` as it leaves them, and the code returned
(`none` when a call never returned). -/
structure ServerRun where
  events : List Event
  args : Args
  ret : Option ErrorCode
  deriving DecidableEq, Repr

/-- The function `listen_connection`. -/
def listen_connection (ok : Bool) : ErrorCode :=
  if ok then .SUCCESS else .ERROR_SOCKET_NO_ESCUCHANDO

/-- The `while (true)` loop of `start_server`, on the outcomes of the `accept` calls. -/
def accept_loop (fs : Str → FileResult) : List (Option Conn) → Args → ServerRun
  | [], args => ⟨[], args, none⟩
  | none :: rest, args =>
    let k := accept_loop fs rest args
    ⟨.accept false :: k.events, k.args, k.ret⟩
  | some c :: rest, args =>
    let h := handle_client fs c.recvs c.sends args
    match h.ret with
    | none => ⟨.accept true :: h.events, h.args, none⟩
    | some error =>
      if error ≠ .SUCCESS then
        ⟨.accept true :: h.events ++ [.close_client], h.args, some error⟩
      else
        let k := accept_loop fs rest h.args
        ⟨.accept true :: h.events ++ k.events, k.args, k.ret⟩

/-- The function `start_server`. The port is converted to `uint16_t` for `make_socket`. -/
def start_server (fs : Str → FileResult) (net : Net) (args : Args) : ServerRun :=
  let port := (args.puerto % 65536).toNat
  if net.socket_ok then
    let result := (listen_connection net.listen_ok).toNat
    if result ≠ 0 then
      ⟨[.make_socket port true, .listen false, .close_server], args,
        some .ERROR_NO_ENCONTRADO_SOCKET⟩
    else
      let k := accept_loop fs net.accepts args
      ⟨.make_socket port true :: .listen true :: k.events, k.args, k.ret⟩
  else ⟨[.make_socket port false], args, some .ERROR_NO_ENCONTRADO_SOCKET⟩

/-! ## `parse_args` and `main` -/

/-- What the process is started with: the argument vector, the directory `getcwd` gives,
the environment variables `DOCSERVER_PORT` and `DOCSERVER_BASEDIR`, and the library
function `std::stoi` (`none` when it throws). -/
structure Process where
  argv : List Str
  cwd : Str
  env_port : Option Str
  env_basedir : Option Str
  stoi : Str → Option Int

/-- The `for` loop of `parse_args`, on the arguments from `argv[i]` on: `none` when
`std::stoi` throws (the exception is not caught there). -/
def parse_loop (stoi : Str → Option Int) (env_basedir : Option Str) :
    List Str → Args → Option (ErrorCode × Args)
  | [], args => some (.SUCCESS, args)
  | arg :: rest, args =>
    if arg = "-v".toList ∨ arg = "--verbose".toList then
      parse_loop stoi env_basedir rest { args with verbose := true }
    else if arg = "-h".toList ∨ arg = "--help".toList then
      parse_loop stoi env_basedir rest { args with help := true }
    else if arg = "-p".toList ∨ arg = "--port".toList then
      match rest with
      | v :: rest2 =>
        match stoi v with
        | none => none
        | some n => parse_loop stoi env_basedir rest2 { args with puerto := n }
      | [] => some (.ERROR_ARGUMENTOS, args)
    else if arg = "-b".toList ∨ arg = "--base".toList then
      match rest with
      | v :: rest2 => parse_loop stoi env_basedir rest2 { args with directorio := v }
      | [] =>
        match env_basedir with
        | some env_dir => some (.SUCCESS, { args with directorio := env_dir })
        | none => some (.SUCCESS, args)
    else some (.ERROR_OPCION_DESCONOCIDA, args)

/-- The function `parse_args`; `argc` is the length of `argv`. -/
def parse_args (stoi : Str → Option Int) (env_basedir : Option Str) (argv : List Str)
    (args : Args) : Option (ErrorCode × Args) :=
  if argv.length < 1 then some (.ERROR_ARGUMENTOS, args)
  else parse_loop stoi env_basedir (argv.drop 1) args

/-- How the process ends: `main` returns a value, or `std::terminate` is called for an
exception nobody catches. -/
inductive Exit
  | returned (code : Nat)
  | terminated
  deriving DecidableEq, Repr

/-- The function `main`: how the process ends, `none` when a call never returns. -/
def main (fs : Str → FileResult) (net : Net) (p : Process) : Option Exit :=
  let args : Args := { directorio := p.cwd }
  let port : Option Int :=
    match p.env_port with
    | some env_port => p.stoi env_port
    | none => some args.puerto
  match port with
  | none => some (.returned ErrorCode.ERROR_VARIABLE_NO_DEFINIDA.toNat)
  | some puerto =>
    match parse_args p.stoi p.env_basedir p.argv { args with puerto := puerto } with
    | none => some .terminated
    | some (error_code, args) =>
      if error_code ≠ .SUCCESS then some (.returned error_code.toNat)
      else if args.help then some (.returned ErrorCode.SUCCESS.toNat)
      else
        match (start_server fs net args).ret with
        | none => none
        | some _ => some (.returned ErrorCode.SUCCESS.toNat)

/-! ## Notions used in the statements -/

/-- A request text without one leading `GET `. -/
def without_GET (t : Str) : Str :=
  if "GET ".toList.isPrefixOf t then t.drop 4 else t

/-- Whether a text holds a path separator, `/` or `\\`. -/
def has_separator (t : Str) : Prop := ∃ c ∈ t, c = '/' ∨ c = '\\'

instance has_separator_decidable (t : Str) : Decidable (has_separator t) :=
  inferInstanceAs (Decidable (∃ c ∈ t, c = '/' ∨ c = '\\'))

/-- The argument of the `read_file` call of `handle_client`, for the request text `t` (the
text after the newlines are removed) and the base directory. -/
def request_path (directorio t : Str) : Str :=
  if (es_direccion t).1 then (es_direccion t).2
  else directorio ++ "/".toList ++ (es_direccion t).2

/-- The connections of `pre` are handled one after the other from `args`, failed `accept`
calls apart: `some` of `args` as the last of them leaves it when `handle_client` returns
`SUCCESS` for every one, `none` otherwise. -/
def served (fs : Str → FileResult) : List (Option Conn) → Args → Option Args
  | [], args => some args
  | none :: rest, args => served fs rest args
  | some c :: rest, args =>
    if (handle_client fs c.recvs c.sends args).ret = some .SUCCESS then
      served fs rest (handle_client fs c.recvs c.sends args).args
    else none

/-- Every event of a run is a `send` call. -/
def only_sends (evs : List Event) : Prop := ∀ e ∈ evs, ∃ d r, e = Event.send d r

/-- The codes `send_response` returns for a failed `send`. -/
def is_send_error (e : ErrorCode) : Prop := e = .ERROR_LEVE_AL_ENVIAR ∨ e = .ERROR_AL_ENVIAR

/-! ## Lemmas -/

/-- The data sent by two runs in a row. -/
theorem sent_data_append (a b : List Event) :
    sent_data (a ++ b) = sent_data a ++ sent_data b := by
  induction a with
  | nil => rfl
  | cons e t ih => cases e <;> simp [sent_data, ih]

/-- The `recv` calls of two runs in a row. -/
theorem recv_count_append (a b : List Event) :
    recv_count (a ++ b) = recv_count a + recv_count b := by
  induction a with
  | nil => simp [recv_count]
  | cons e t ih => cases e <;> simp [recv_count, ih]; omega

/-- The `accept` calls of two runs in a row. -/
theorem accept_count_append (a b : List Event) :
    accept_count (a ++ b) = accept_count a + accept_count b := by
  induction a with
  | nil => simp [accept_count]
  | cons e t ih => cases e <;> simp [accept_count, ih]; omega

theorem only_sends_nil : only_sends [] := by
  intro e he; cases he

theorem only_sends_cons (d : Str) (r : SendResult) (evs : List Event) (h : only_sends evs) :
    only_sends (.send d r :: evs) := by
  intro e he
  rcases List.mem_cons.mp he with rfl | he
  · exact ⟨d, r, rfl⟩
  · exact h e he

theorem only_sends_append (a b : List Event) (ha : only_sends a) (hb : only_sends b) :
    only_sends (a ++ b) := by
  intro e he
  rcases List.mem_append.mp he with he | he
  · exact ha e he
  · exact hb e he

/-- A run of `send` calls holds no `accept` and no `recv`. -/
theorem only_sends_counts : ∀ (evs : List Event), only_sends evs →
    accept_count evs = 0 ∧ recv_count evs = 0
  | [], _ => ⟨rfl, rfl⟩
  | e :: evs, h => by
    obtain ⟨d, r, rfl⟩ := h e (List.mem_cons_self _ _)
    exact only_sends_counts evs (fun e he => h e (List.mem_cons_of_mem _ he))

/-- The chunk `to_send` of `send_response` is the next 1024 bytes, or all that is left. -/
theorem take_chunk (l : Str) :
    l.take (if l.length > chunk_size then chunk_size else l.length) = l.take 1024 := by
  unfold chunk_size
  split
  · rfl
  · rw [List.take_of_length_le (le_refl _), List.take_of_length_le (by omega)]

/-- The body loop from any offset: on a socket that takes at least one byte in every call
and answers often enough, it returns `SUCCESS`, writes the body from the offset on, and
offers in every call the next 1024 bytes at most, from where the last call stopped. -/
theorem send_body_spec (body : Str) : ∀ (sends : List SendResult) (offset : Nat),
    offset ≤ body.length →
    (∀ r ∈ sends, ∃ cap, 1 ≤ cap ∧ r = SendResult.accept cap) →
    body.length - offset ≤ sends.length →
    (send_body body sends offset).ret = some .SUCCESS ∧
    written (send_body body sends offset).events = body.drop offset ∧
    (∀ d ∈ sent_data (send_body body sends offset).events, d.length ≤ 1024) ∧
    (∀ pre d r post, (send_body body sends offset).events = pre ++ Event.send d r :: post →
      d = (body.drop (offset + (written pre).length)).take 1024) := by
  intro sends
  induction sends with
  | nil =>
    intro offset hoff _ hlen
    have h : ¬ offset < body.length := by simp at hlen; omega
    have h2 : body.length ≤ offset := by omega
    simp [send_body, h, written, sent_data, List.drop_eq_nil_of_le h2]
  | cons r rest ih =>
    intro offset hoff hcap hlen
    by_cases h : offset < body.length
    · obtain ⟨cap, hc1, rfl⟩ := hcap r (List.mem_cons_self _ _)
      have hrest : ∀ r ∈ rest, ∃ cap, 1 ≤ cap ∧ r = SendResult.accept cap :=
        fun r hr => hcap r (List.mem_cons_of_mem _ hr)
      have hdl : (body.drop offset).length = body.length - offset := List.length_drop _ _
      set to_send :=
        (if body.length - offset > chunk_size then chunk_size else body.length - offset) with hts
      have hts1 : 1 ≤ to_send ∧ to_send ≤ body.length - offset ∧ to_send ≤ 1024 := by
        rw [hts]; unfold chunk_size; split <;> omega
      have hdata : (body.drop offset).take to_send = (body.drop offset).take 1024 := by
        have := take_chunk (body.drop offset)
        rw [hdl] at this
        exact this
      obtain ⟨i1, i2, i3, i4⟩ := ih (offset + min cap to_send) (by omega) hrest
        (by simp at hlen; omega)
      simp only [send_body, h, if_true]
      rw [← hts]
      refine ⟨i1, ?_, ?_, ?_⟩
      · simp only [written, accepted, i2, List.take_take]
        rw [← List.drop_drop]
        exact List.take_append_drop _ _
      · intro d hd
        simp only [sent_data, List.mem_cons] at hd
        rcases hd with rfl | hd
        · simp only [List.length_take]; omega
        · exact i3 d hd
      · intro pre d r post hev
        cases pre with
        | nil =>
          simp only [List.nil_append, List.cons.injEq, Event.send.injEq] at hev
          obtain ⟨⟨rfl, _⟩, _⟩ := hev
          simpa [written] using hdata
        | cons e pre2 =>
          simp only [List.cons_append, List.cons.injEq] at hev
          obtain ⟨rfl, hev2⟩ := hev
          have := i4 pre2 d r post hev2
          rw [this]
          simp only [written, accepted, List.length_append, List.length_take, hdl, List.take_take]
          congr 2
          omega
    · have h2 : body.length ≤ offset := by omega
      simp [send_body, h, written, sent_data, List.drop_eq_nil_of_le h2]

/-- The body loop on an empty body sends nothing. -/
theorem send_body_nil (sends : List SendResult) :
    send_body [] sends 0 = ⟨[], sends, some .SUCCESS⟩ := by
  cases sends <;> simp [send_body]

theorem only_sends_send_body (body : Str) : ∀ (sends : List SendResult) (offset : Nat),
    only_sends (send_body body sends offset).events := by
  intro sends
  induction sends with
  | nil => intro offset; simp only [send_body]; split <;> exact only_sends_nil
  | cons r rest ih =>
    intro offset
    simp only [send_body]
    split
    · cases r with
      | error b => exact only_sends_cons _ _ _ only_sends_nil
      | accept cap => exact only_sends_cons _ _ _ (ih _)
    · exact only_sends_nil

theorem only_sends_send_unchecked (sends : List SendResult) (data : Str) (ev : List Event)
    (rest : List SendResult) (h : send_unchecked sends data = some (ev, rest)) :
    only_sends ev := by
  cases sends with
  | nil => simp [send_unchecked] at h
  | cons r t =>
    simp only [send_unchecked, Option.some.injEq, Prod.mk.injEq] at h
    rw [← h.1]
    exact only_sends_cons _ _ _ only_sends_nil

theorem only_sends_optional (c : Bool) (sends : List SendResult) (data : Str)
    (ev : List Event) (rest : List SendResult)
    (h : (if c = true then send_unchecked sends data else some ([], sends)) = some (ev, rest)) :
    only_sends ev := by
  by_cases hv : c = true
  · rw [if_pos hv] at h
    exact only_sends_send_unchecked _ _ _ _ h
  · rw [if_neg hv] at h
    simp only [Option.some.injEq, Prod.mk.injEq] at h
    rw [← h.1]
    exact only_sends_nil

/-- The function `send_response` makes `send` calls only. -/
theorem only_sends_send_response (sends : List SendResult) (header : Str) (args : Args)
    (body : Str) : only_sends (send_response sends header args body).events := by
  have hb := only_sends_send_body body
  unfold send_response
  dsimp only
  split
  · exact only_sends_nil
  · rename_i ev1 sends1 heq
    have h1 : only_sends ev1 := only_sends_optional _ _ _ _ _ heq
    split
    · exact h1
    · rename_i r sends2
      have h2 : only_sends (ev1 ++ Event.send (header ++ "\n".toList) r ::
          (send_body body sends2 0).events) :=
        only_sends_append _ _ h1 (only_sends_cons _ _ _ (hb _ _))
      split
      · exact only_sends_append _ _ h1 (only_sends_cons _ _ _ only_sends_nil)
      · split
        · split
          · exact h2
          · rename_i ev3 sends3 heq3
            have h3 : only_sends ev3 := only_sends_optional _ _ _ _ _ heq3
            exact only_sends_append _ _ h2 h3
        · exact h2

/-- The function `send_response` with an empty body, on a socket that answers often
enough: it returns, the header is sent, and every other `send` is a trace line of the
verbose mode. -/
theorem send_response_header_only (sends : List SendResult) (header : Str) (args : Args)
    (hs : (if args.verbose then 3 else 1) ≤ sends.length) :
    (∃ e, (send_response sends header args []).ret = some e) ∧
    (header ++ "\n".toList) ∈ sent_data (send_response sends header args []).events ∧
    (∀ d ∈ sent_data (send_response sends header args []).events,
      d = header ++ "\n".toList ∨
        (args.verbose = true ∧
          (d = open_trace args.archivo ∨ d = close_trace args.archivo 0))) ∧
    (args.verbose = false →
      sent_data (send_response sends header args []).events = [header ++ "\n".toList]) ∧
    recv_count (send_response sends header args []).events = 0 := by
  cases hv : args.verbose
  · simp only [hv, Bool.false_eq_true, if_false] at hs
    obtain ⟨r, rest, rfl⟩ : ∃ r rest, sends = r :: rest := by
      cases sends with
      | nil => simp at hs
      | cons r rest => exact ⟨r, rest, rfl⟩
    cases r <;>
      simp [send_response, hv, send_body_nil, sent_data, recv_count]
  · simp only [hv, if_true] at hs
    obtain ⟨r1, r2, r3, rest, rfl⟩ : ∃ r1 r2 r3 rest, sends = r1 :: r2 :: r3 :: rest := by
      match sends, hs with
      | r1 :: r2 :: r3 :: rest, _ => exact ⟨r1, r2, r3, rest, rfl⟩
    cases r2 <;>
      simp [send_response, hv, send_unchecked, send_body_nil, sent_data, recv_count]

/-- The method `find` does not answer a position before the one it starts from. -/
theorem find_from_ge (pat : Str) : ∀ (s : Str) (pos n : Nat),
    find_from pat s pos = some n → pos ≤ n := by
  intro s
  induction s with
  | nil =>
    intro pos n h
    simp only [find_from] at h
    split at h
    · simp at h; omega
    · simp at h
  | cons c t ih =>
    intro pos n h
    simp only [find_from] at h
    split at h
    · simp at h; omega
    · have := ih _ _ h; omega

/-- The test `str.find(GET_prefix) == 0` holds when `str` starts with `GET `. -/
theorem find_zero_iff (s : Str) :
    find s GET_prefix = some 0 ↔ GET_prefix.isPrefixOf s = true := by
  unfold find
  cases s with
  | nil => simp [find_from, GET_prefix]
  | cons c t =>
    simp only [find_from]
    split
    · simp [*]
    · constructor
      · intro h
        have := find_from_ge _ _ _ _ h
        omega
      · intro h; contradiction

/-- What `es_direccion` leaves in the string, and what it returns. -/
theorem es_direccion_eq (t : Str) :
    es_direccion t = ((without_GET t).any (fun c => c == '/' || c == '\\'), without_GET t) := by
  unfold es_direccion without_GET
  by_cases h : GET_prefix.isPrefixOf t = true
  · have h2 := h
    unfold GET_prefix at h2
    simp only [(find_zero_iff t).mpr h, h2, if_true]
    rfl
  · have h2 := h
    unfold GET_prefix at h2
    have h3 : ¬ find t GET_prefix = some 0 := fun hh => h ((find_zero_iff t).mp hh)
    simp only [h3, h2, if_false]
    simp

/-- The scan of `es_direccion` finds a separator when there is one. -/
theorem any_separator_iff (t : Str) :
    t.any (fun c => c == '/' || c == '\\') = true ↔ has_separator t := by
  simp [has_separator, List.any_eq_true]

/-- Taking `GET ` away neither adds nor removes a separator. -/
theorem has_separator_without_GET (t : Str) :
    has_separator (without_GET t) ↔ has_separator t := by
  unfold without_GET
  split
  · rename_i h
    rw [List.isPrefixOf_iff_prefix] at h
    obtain ⟨p, rfl⟩ := h
    have : List.drop 4 ("GET ".toList ++ p) = p := by
      show List.drop 4 (['G', 'E', 'T', ' '] ++ p) = p
      rfl
    rw [this]
    unfold has_separator
    constructor
    · rintro ⟨c, hc, h⟩
      exact ⟨c, List.mem_append_right _ hc, h⟩
    · rintro ⟨c, hc, h⟩
      rcases List.mem_append.mp hc with hc | hc
      · exfalso
        have : c = 'G' ∨ c = 'E' ∨ c = 'T' ∨ c = ' ' := by simpa using hc
        rcases this with rfl | rfl | rfl | rfl <;> revert h <;> decide
      · exact ⟨c, hc, h⟩
  · rfl

/-- The argument of `read_file`, by the kind of the request. -/
theorem request_path_eq (directorio t : Str) :
    request_path directorio t =
      if has_separator t then without_GET t else directorio ++ "/".toList ++ without_GET t := by
  unfold request_path
  rw [es_direccion_eq]
  by_cases h : has_separator t
  · have h2 := (any_separator_iff _).mpr ((has_separator_without_GET t).mpr h)
    simp only [h2, h, if_true]
  · have h2 : ¬ (without_GET t).any (fun c => c == '/' || c == '\\') = true :=
      fun hh => h ((has_separator_without_GET t).mp ((any_separator_iff _).mp hh))
    simp only [h2, h, if_false]
    rfl

/-- The codes of `readClientRequest`. -/
theorem readClientRequest_code (r : RecvResult) (archivo : Str) :
    (readClientRequest r archivo).1 = .SUCCESS ∨
      (readClientRequest r archivo).1 = .ERROR_PETICION_VACIA := by
  unfold readClientRequest
  cases r with
  | error b => exact Or.inr rfl
  | bytes b =>
    dsimp only
    split
    · exact Or.inr rfl
    · split
      · exact Or.inr rfl
      · exact Or.inl rfl

/-- The function `read_file` returns no send error. -/
theorem read_file_code (fs : Str → FileResult) (path : Str) :
    ¬ is_send_error (read_file fs path).2 := by
  unfold read_file is_send_error
  cases fs path <;> simp

/-- The loop body on the request `close`. -/
theorem handle_request_close (fs : Str → FileResult) (r : RecvResult)
    (sends : List SendResult) (args : Args) (raw : Str)
    (hr : readClientRequest r args.archivo = (.SUCCESS, raw))
    (ht : remove_newlines raw = "close".toList) :
    handle_request fs r sends args =
      ⟨[.recv r, .close_client], sends, { args with archivo := "close".toList },
        .returned .SUCCESS⟩ := by
  simp [handle_request, hr, ht]

/-- The loop body on a request for a file starts with `recv` and `read_file`. -/
theorem handle_request_events (fs : Str → FileResult) (r : RecvResult)
    (sends : List SendResult) (args : Args) (raw : Str)
    (hr : readClientRequest r args.archivo = (.SUCCESS, raw))
    (h1 : remove_newlines raw ≠ "close".toList) (h2 : remove_newlines raw ≠ []) :
    ∃ tail, (handle_request fs r sends args).events =
      .recv r :: .read_file (request_path args.directorio (remove_newlines raw)) :: tail := by
  simp only [handle_request, hr, request_path]
  simp only [ne_eq, not_true_eq_false, if_false, h1, List.isEmpty_iff, h2]
  split <;> split <;> split <;> exact ⟨_, rfl⟩

/-- The loop body on a request whose file is mapped, when `send_response` returns. -/
theorem handle_request_found (fs : Str → FileResult) (r : RecvResult)
    (sends : List SendResult) (args : Args) (raw c : Str)
    (hr : readClientRequest r args.archivo = (.SUCCESS, raw))
    (h1 : remove_newlines raw ≠ "close".toList) (h2 : remove_newlines raw ≠ [])
    (hf : fs (request_path args.directorio (remove_newlines raw)) = .mapped c)
    (e : ErrorCode)
    (hs : (send_response sends (ok_header args.verbose c)
      { args with archivo := (es_direccion (remove_newlines raw)).2 } (c ++ "\n".toList)).ret
        = some e) :
    handle_request fs r sends args =
      ⟨.recv r :: .read_file (request_path args.directorio (remove_newlines raw)) ::
        (send_response sends (ok_header args.verbose c)
          { args with archivo := (es_direccion (remove_newlines raw)).2 }
          (c ++ "\n".toList)).events,
       (send_response sends (ok_header args.verbose c)
          { args with archivo := (es_direccion (remove_newlines raw)).2 }
          (c ++ "\n".toList)).sends,
       { args with archivo := (es_direccion (remove_newlines raw)).2 }, .next⟩ := by
  have hrf : read_file fs (request_path args.directorio (remove_newlines raw)) =
      (⟨c, c.length⟩, .SUCCESS) := by simp [read_file, hf]
  simp only [request_path] at hrf hs ⊢
  simp only [handle_request, hr]
  simp only [ne_eq, not_true_eq_false, if_false, h1, List.isEmpty_iff, h2, hrf, SafeMap.get, hs]

/-- The loop body on a request whose file is not mapped, when `send_response` returns. -/
theorem handle_request_not_found (fs : Str → FileResult) (r : RecvResult)
    (sends : List SendResult) (args : Args) (raw : Str)
    (hr : readClientRequest r args.archivo = (.SUCCESS, raw))
    (h1 : remove_newlines raw ≠ "close".toList) (h2 : remove_newlines raw ≠ [])
    (hf : (read_file fs (request_path args.directorio (remove_newlines raw))).2 ≠ .SUCCESS)
    (e : ErrorCode)
    (hs : (send_response sends "HTTP/1.1 404 Not Found\n".toList
      { args with archivo := (es_direccion (remove_newlines raw)).2 } []).ret = some e) :
    handle_request fs r sends args =
      ⟨.recv r :: .read_file (request_path args.directorio (remove_newlines raw)) ::
        (send_response sends "HTTP/1.1 404 Not Found\n".toList
          { args with archivo := (es_direccion (remove_newlines raw)).2 } []).events
          ++ [.close_client],
       (send_response sends "HTTP/1.1 404 Not Found\n".toList
          { args with archivo := (es_direccion (remove_newlines raw)).2 } []).sends,
       { args with archivo := (es_direccion (remove_newlines raw)).2 },
       .returned (read_file fs (request_path args.directorio (remove_newlines raw))).2⟩ := by
  simp only [request_path] at hf hs ⊢
  simp only [handle_request, hr]
  simp only [ne_eq, not_true_eq_false, if_false, h1, List.isEmpty_iff, h2, hf, not_false_eq_true,
    if_true, hs]

/-- The loop body on a request of newlines only, when `send_response` returns. -/
theorem handle_request_empty (fs : Str → FileResult) (r : RecvResult)
    (sends : List SendResult) (args : Args) (raw : Str)
    (hr : readClientRequest r args.archivo = (.SUCCESS, raw))
    (h2 : remove_newlines raw = [])
    (e : ErrorCode)
    (hs : (send_response sends "400 Bad Request\n".toList { args with archivo := [] } []).ret
      = some e) :
    handle_request fs r sends args =
      ⟨.recv r :: (send_response sends "400 Bad Request\n".toList
          { args with archivo := [] } []).events ++ [.close_client],
       (send_response sends "400 Bad Request\n".toList { args with archivo := [] } []).sends,
       { args with archivo := [] }, .returned .ERROR_ARGUMENTOS⟩ := by
  have hnc : ¬ (([] : Str) = "close".toList) := by decide
  simp only [handle_request, hr]
  simp only [ne_eq, not_true_eq_false, if_false, h2, hnc, List.isEmpty_nil, if_true, hs]

/-- The loop body of `handle_client` returns no send error. -/
theorem handle_request_code (fs : Str → FileResult) (r : RecvResult)
    (sends : List SendResult) (args : Args) (e : ErrorCode)
    (h : (handle_request fs r sends args).step = .returned e) : ¬ is_send_error e := by
  have h1 := readClientRequest_code r args.archivo
  have h2 := read_file_code fs
  unfold handle_request at h
  dsimp only at h
  repeat' (split at h)
  all_goals first
    | (simp at h; done)
    | (simp only [Step.returned.injEq] at h
       subst h
       first
         | exact h2 _
         | (rcases h1 with h1 | h1 <;> simp_all [is_send_error]))

/-- The function `handle_client` is its loop body, then itself on the rest. -/
theorem handle_client_step (fs : Str → FileResult) (r : RecvResult) (recvs : List RecvResult)
    (sends : List SendResult) (args : Args) :
    handle_client fs (r :: recvs) sends args =
      match (handle_request fs r sends args).step with
      | .blocked => ⟨(handle_request fs r sends args).events, (handle_request fs r sends args).args,
          none⟩
      | .returned e => ⟨(handle_request fs r sends args).events,
          (handle_request fs r sends args).args, some e⟩
      | .next =>
        ⟨(handle_request fs r sends args).events ++
          (handle_client fs recvs (handle_request fs r sends args).sends
            (handle_request fs r sends args).args).events,
         (handle_client fs recvs (handle_request fs r sends args).sends
            (handle_request fs r sends args).args).args,
         (handle_client fs recvs (handle_request fs r sends args).sends
            (handle_request fs r sends args).args).ret⟩ := by
  simp only [handle_client]

/-- The events of `handle_client` start with those of its first pass. -/
theorem handle_client_events (fs : Str → FileResult) (r : RecvResult) (recvs : List RecvResult)
    (sends : List SendResult) (args : Args) :
    ∃ tail, (handle_client fs (r :: recvs) sends args).events =
      (handle_request fs r sends args).events ++ tail := by
  simp only [handle_client]
  split
  · exact ⟨[], by simp⟩
  · exact ⟨[], by simp⟩
  · exact ⟨_, rfl⟩

/-- When the first pass returns, `handle_client` returns what it does. -/
theorem handle_client_of_returned (fs : Str → FileResult) (r : RecvResult)
    (recvs : List RecvResult) (sends : List SendResult) (args : Args) (e : ErrorCode)
    (h : (handle_request fs r sends args).step = .returned e) :
    handle_client fs (r :: recvs) sends args =
      ⟨(handle_request fs r sends args).events, (handle_request fs r sends args).args, some e⟩ := by
  simp only [handle_client, h]

theorem accept_count_handle_request (fs : Str → FileResult) (r : RecvResult)
    (sends : List SendResult) (args : Args) :
    accept_count (handle_request fs r sends args).events = 0 := by
  have key : ∀ (h : Str) (a : Args) (b : Str),
      accept_count (send_response sends h a b).events = 0 :=
    fun h a b => (only_sends_counts _ (only_sends_send_response sends h a b)).1
  unfold handle_request
  dsimp only
  repeat' split
  all_goals simp [accept_count, accept_count_append, key]

/-- The function `handle_client` never calls `accept`. -/
theorem accept_count_handle_client (fs : Str → FileResult) : ∀ (recvs : List RecvResult)
    (sends : List SendResult) (args : Args),
    accept_count (handle_client fs recvs sends args).events = 0 := by
  intro recvs
  induction recvs with
  | nil => intro sends args; rfl
  | cons r recvs ih =>
    intro sends args
    rw [handle_client_step]
    split
    · exact accept_count_handle_request fs r sends args
    · exact accept_count_handle_request fs r sends args
    · show accept_count (_ ++ _) = 0
      rw [accept_count_append, accept_count_handle_request, ih]

/-- The accept loop after a failed `accept`. -/
theorem accept_loop_failed_accept (fs : Str → FileResult) (rest : List (Option Conn))
    (args : Args) :
    accept_loop fs (none :: rest) args =
      ⟨.accept false :: (accept_loop fs rest args).events, (accept_loop fs rest args).args,
        (accept_loop fs rest args).ret⟩ := by
  simp only [accept_loop]

/-- The accept loop after a connection handled with `SUCCESS`. -/
theorem accept_loop_success (fs : Str → FileResult) (c : Conn) (rest : List (Option Conn))
    (args : Args) (h : (handle_client fs c.recvs c.sends args).ret = some .SUCCESS) :
    accept_loop fs (some c :: rest) args =
      ⟨(.accept true :: (handle_client fs c.recvs c.sends args).events) ++
          (accept_loop fs rest (handle_client fs c.recvs c.sends args).args).events,
        (accept_loop fs rest (handle_client fs c.recvs c.sends args).args).args,
        (accept_loop fs rest (handle_client fs c.recvs c.sends args).args).ret⟩ := by
  simp only [accept_loop, h, ne_eq, not_true_eq_false, if_false]

/-- The accept loop at a connection handled with another code. -/
theorem accept_loop_failure (fs : Str → FileResult) (c : Conn) (rest : List (Option Conn))
    (args : Args) (e : ErrorCode) (h : (handle_client fs c.recvs c.sends args).ret = some e)
    (he : e ≠ .SUCCESS) :
    accept_loop fs (some c :: rest) args =
      ⟨(.accept true :: (handle_client fs c.recvs c.sends args).events) ++ [.close_client],
        (handle_client fs c.recvs c.sends args).args, some e⟩ := by
  simp only [accept_loop, h, ne_eq, he, not_false_eq_true, if_true]

/-- After connections that were all handled with `SUCCESS`, the accept loop goes on with
the rest of the script, having called `accept` once for each of them. -/
theorem accept_loop_after_served (fs : Str → FileResult) : ∀ (pre : List (Option Conn))
    (args args2 : Args), served fs pre args = some args2 →
    ∀ tail : List (Option Conn),
      (accept_loop fs (pre ++ tail) args).ret = (accept_loop fs tail args2).ret ∧
      (accept_loop fs (pre ++ tail) args).args = (accept_loop fs tail args2).args ∧
      ∃ evs, accept_count evs = pre.length ∧
        (accept_loop fs (pre ++ tail) args).events = evs ++ (accept_loop fs tail args2).events := by
  intro pre
  induction pre with
  | nil =>
    intro args args2 h tail
    simp only [served, Option.some.injEq] at h
    subst h
    exact ⟨rfl, rfl, [], rfl, rfl⟩
  | cons a pre ih =>
    intro args args2 h tail
    cases a with
    | none =>
      simp only [served] at h
      obtain ⟨i1, i2, evs, i3, i4⟩ := ih args args2 h tail
      rw [List.cons_append, accept_loop_failed_accept]
      refine ⟨i1, i2, .accept false :: evs, ?_, ?_⟩
      · simp only [accept_count, i3, List.length_cons]
      · show _ :: _ = _ :: (_ ++ _)
        rw [i4]
    | some c =>
      simp only [served] at h
      split at h
      · rename_i hok
        obtain ⟨i1, i2, evs, i3, i4⟩ := ih _ args2 h tail
        rw [List.cons_append, accept_loop_success fs c _ args hok]
        refine ⟨i1, i2, (.accept true :: (handle_client fs c.recvs c.sends args).events) ++ evs,
          ?_, ?_⟩
        · rw [accept_count_append]
          simp only [accept_count, accept_count_handle_client, i3, List.length_cons]
          omega
        · show _ ++ _ = _
          rw [i4, List.append_assoc]
      · simp at h

/-- The body loop uses at most one `send` outcome for each byte that is left. -/
theorem send_body_sends_left (body : Str) : ∀ (sends : List SendResult) (offset : Nat),
    (∀ s ∈ sends, ∃ k, 1 ≤ k ∧ s = SendResult.accept k) →
    sends.length ≤ (send_body body sends offset).sends.length + (body.length - offset) := by
  intro sends
  induction sends with
  | nil => intro offset _; simp
  | cons r rest ih =>
    intro offset hcap
    obtain ⟨cap, hc1, rfl⟩ := hcap r (List.mem_cons_self _ _)
    have hrest : ∀ s ∈ rest, ∃ k, 1 ≤ k ∧ s = SendResult.accept k :=
      fun s hs => hcap s (List.mem_cons_of_mem _ hs)
    simp only [send_body]
    split
    · rename_i h
      have hts : 1 ≤ (if body.length - offset > chunk_size then chunk_size
          else body.length - offset) := by
        unfold chunk_size; split <;> omega
      have := ih (offset + min cap (if body.length - offset > chunk_size then chunk_size
          else body.length - offset)) hrest
      simp only [List.length_cons]
      omega
    · simp

/-! ## Properties of the server -/

/-- C1. A request text that holds `/` or `\\` is passed to `read_file` as it is, less one
leading `GET `, whatever the base directory. For every outcome `r` of the `recv` call that
`readClientRequest` accepts, storing `raw`: when the text left once the newlines are removed
holds a separator, the first two calls of `handle_client` are that `recv` and `read_file` on
this text without one leading `GET `. The path does not depend on `args`, so neither on
`args.directorio`. -/
theorem path_like_request_is_used_verbatim (fs : Str → FileResult) (r : RecvResult)
    (recvs : List RecvResult) (sends : List SendResult) (args : Args) (raw : Str)
    (hr : readClientRequest r args.archivo = (.SUCCESS, raw))
    (hsep : has_separator (remove_newlines raw)) :
    (handle_client fs (r :: recvs) sends args).events.take 2 =
      [.recv r, .read_file (without_GET (remove_newlines raw))] := by
  have h1 : remove_newlines raw ≠ "close".toList := by
    intro h; rw [h] at hsep; revert hsep; decide
  have h2 : remove_newlines raw ≠ [] := by
    intro h; rw [h] at hsep; revert hsep; decide
  obtain ⟨tail, ht⟩ := handle_request_events fs r sends args raw hr h1 h2
  obtain ⟨tail2, ht2⟩ := handle_client_events fs r recvs sends args
  rw [ht2, ht, request_path_eq, if_pos hsep]
  rfl

/-- C1 at the request `GET /etc/hosts` with base directory `/srv`: the path is
`/etc/hosts`. -/
theorem path_like_request_witness :
    (handle_client (fun _ => .open_fails) [.bytes "GET /etc/hosts\n".toList] [.accept 100]
      { directorio := "/srv".toList }).events.take 2 =
      [.recv (.bytes "GET /etc/hosts\n".toList), .read_file "/etc/hosts".toList] :=
  path_like_request_is_used_verbatim (fun _ => .open_fails) (.bytes "GET /etc/hosts\n".toList)
    [] [.accept 100] { directorio := "/srv".toList } "GET /etc/hosts\n".toList
    (by decide) (by decide)

/-- C2, amended. A request text that is not empty, is not `close` and holds no separator is
passed to `read_file` as the base directory, then `/`, then the text less one leading
`GET `: for a text that does not start with `GET ` this is `baseDirectory + "/" + request`. -/
theorem bare_name_request_is_joined_to_base (fs : Str → FileResult) (r : RecvResult)
    (recvs : List RecvResult) (sends : List SendResult) (args : Args) (raw : Str)
    (hr : readClientRequest r args.archivo = (.SUCCESS, raw))
    (h1 : remove_newlines raw ≠ [])
    (h2 : remove_newlines raw ≠ "close".toList)
    (hsep : ¬ has_separator (remove_newlines raw)) :
    (handle_client fs (r :: recvs) sends args).events.take 2 =
      [.recv r,
        .read_file (args.directorio ++ "/".toList ++ without_GET (remove_newlines raw))] := by
  obtain ⟨tail, ht⟩ := handle_request_events fs r sends args raw hr h2 h1
  obtain ⟨tail2, ht2⟩ := handle_client_events fs r recvs sends args
  rw [ht2, ht, request_path_eq, if_neg hsep]
  rfl

/-- C2 amended, at the request `hello.txt` with base directory `/tmp/docroot`. -/
theorem bare_name_request_witness :
    (handle_client (fun _ => .open_fails) [.bytes "hello.txt\n".toList] [.accept 100]
      { directorio := "/tmp/docroot".toList }).events.take 2 =
      [.recv (.bytes "hello.txt\n".toList), .read_file "/tmp/docroot/hello.txt".toList] :=
  bare_name_request_is_joined_to_base (fun _ => .open_fails) (.bytes "hello.txt\n".toList)
    [] [.accept 100] { directorio := "/tmp/docroot".toList } "hello.txt\n".toList
    (by decide) (by decide) (by decide) (by decide)

/-- C2 as stated fails at the request `GET a` with base directory `/srv`: the text holds no
separator, and the path passed to `read_file` is `/srv/a`, not `/srv/GET a`. -/
theorem GET_bare_name_counterexample :
    ¬ has_separator "GET a".toList ∧
    (handle_client (fun _ => .open_fails) [.bytes "GET a\n".toList] [.accept 100]
      { directorio := "/srv".toList }).events.take 2 =
      [.recv (.bytes "GET a\n".toList), .read_file "/srv/a".toList] ∧
    (handle_client (fun _ => .open_fails) [.bytes "GET a\n".toList] [.accept 100]
      { directorio := "/srv".toList }).events.take 2 ≠
      [.recv (.bytes "GET a\n".toList),
        .read_file ("/srv".toList ++ "/".toList ++ "GET a".toList)] := by
  decide

/-- C4. For every body and every socket that takes at least one byte, and at most those
offered, in each `send` of the body (and answers every call: the script has an entry for
every byte of the body), the body loop of `send_response` returns `SUCCESS`; the bytes the
socket took, in call order, are the body, so their number is its length; every call offers
at most 1024 bytes; and the data of every call is the next 1024 bytes of the body at most,
starting at the offset reached, which is the number of bytes taken before. -/
theorem body_loop_delivers_every_byte_once (body : Str) (sends : List SendResult)
    (hcap : ∀ s ∈ sends, ∃ k, 1 ≤ k ∧ s = SendResult.accept k)
    (hlen : body.length ≤ sends.length) :
    (send_body body sends 0).ret = some .SUCCESS ∧
    written (send_body body sends 0).events = body ∧
    (written (send_body body sends 0).events).length = body.length ∧
    (∀ d ∈ sent_data (send_body body sends 0).events, d.length ≤ 1024) ∧
    (∀ pre d s post, (send_body body sends 0).events = pre ++ Event.send d s :: post →
      d = (body.drop (written pre).length).take 1024) := by
  obtain ⟨i1, i2, i3, i4⟩ := send_body_spec body sends 0 (Nat.zero_le _) hcap (by omega)
  rw [List.drop_zero] at i2
  refine ⟨i1, i2, by rw [i2], i3, ?_⟩
  intro pre d s post h
  simpa using i4 pre d s post h

/-- C4 at a body of 1500 bytes, not a multiple of 1024, on a socket that takes 1000 bytes
a call. -/
theorem body_loop_1500_bytes :
    (send_body (List.replicate 1500 'x') (List.replicate 1500 (.accept 1000)) 0).ret
      = some .SUCCESS ∧
    written (send_body (List.replicate 1500 'x') (List.replicate 1500 (.accept 1000)) 0).events
      = List.replicate 1500 'x' :=
  have h := body_loop_delivers_every_byte_once (List.replicate 1500 'x')
    (List.replicate 1500 (.accept 1000))
    (fun s hs => ⟨1000, by decide, List.eq_of_mem_replicate hs⟩)
    (by rw [List.length_replicate, List.length_replicate])
  ⟨h.1, h.2.1⟩

/-- C5. Whatever the configuration, verbose or not, when the request received is `close`
once the newlines are removed (`close` and `close\n` among others), `handle_client` makes no
`send` call and writes no byte for it, closes the client socket right after the `recv`, and
returns `SUCCESS`. -/
theorem close_request_sends_nothing (fs : Str → FileResult) (r : RecvResult)
    (recvs : List RecvResult) (sends : List SendResult) (args : Args) (raw : Str)
    (hr : readClientRequest r args.archivo = (.SUCCESS, raw))
    (ht : remove_newlines raw = "close".toList) :
    (handle_client fs (r :: recvs) sends args).events = [.recv r, .close_client] ∧
    sent_data (handle_client fs (r :: recvs) sends args).events = [] ∧
    written (handle_client fs (r :: recvs) sends args).events = [] ∧
    (handle_client fs (r :: recvs) sends args).ret = some .SUCCESS := by
  simp [handle_client, handle_request_close fs r sends args raw hr ht, sent_data, written]

/-- C5 at the requests `close\n`, verbose on, and `close`, verbose off. -/
theorem close_request_witness :
    (handle_client (fun _ => .open_fails) [.bytes "close\n".toList] [.accept 100]
      { verbose := true }).events = [.recv (.bytes "close\n".toList), .close_client] ∧
    (handle_client (fun _ => .open_fails) [.bytes "close".toList] [.accept 100] { }).ret
      = some .SUCCESS :=
  ⟨(close_request_sends_nothing (fun _ => .open_fails) (.bytes "close\n".toList) []
      [.accept 100] { verbose := true } "close\n".toList (by decide) (by decide)).1,
    (close_request_sends_nothing (fun _ => .open_fails) (.bytes "close".toList) []
      [.accept 100] { } "close".toList (by decide) (by decide)).2.2.2⟩

/-- C6, amended. When the client sends an empty line as newlines only, `handle_client` sends
the header `400 Bad Request` (followed by two newlines), closes the socket as its last call,
reads no other request and returns `ERROR_ARGUMENTOS`, provided the socket answers its
`send` calls (one, or three when verbose). When `recv` gives zero bytes instead,
`handle_client` sends nothing, closes the socket and returns `ERROR_PETICION_VACIA`. -/
theorem newline_only_request_gets_400 (fs : Str → FileResult) (r : RecvResult)
    (recvs : List RecvResult) (sends : List SendResult) (args : Args) (raw : Str)
    (hr : readClientRequest r args.archivo = (.SUCCESS, raw))
    (ht : remove_newlines raw = [])
    (hs : (if args.verbose then 3 else 1) ≤ sends.length) :
    ("400 Bad Request\n\n".toList ∈ sent_data (handle_client fs (r :: recvs) sends args).events ∧
      (handle_client fs (r :: recvs) sends args).events.getLast? = some .close_client ∧
      recv_count (handle_client fs (r :: recvs) sends args).events = 1 ∧
      (handle_client fs (r :: recvs) sends args).ret = some .ERROR_ARGUMENTOS) ∧
    handle_client fs (.bytes [] :: recvs) sends args =
      ⟨[.recv (.bytes []), .close_client], args, some .ERROR_PETICION_VACIA⟩ := by
  constructor
  · obtain ⟨⟨e, he⟩, hmem, -, -, hrc⟩ := send_response_header_only sends
      "400 Bad Request\n".toList { args with archivo := [] } hs
    have hq := handle_request_empty fs r sends args raw hr ht e he
    have hc := handle_client_of_returned fs r recvs sends args .ERROR_ARGUMENTOS (by rw [hq])
    rw [hc, hq]
    refine ⟨?_, ?_, ?_, rfl⟩
    · show _ ∈ sent_data ((_ :: _) ++ _)
      rw [sent_data_append]
      exact List.mem_append_left _ hmem
    · show List.getLast? ((_ :: _) ++ _) = _
      rw [List.getLast?_append]
      rfl
    · show recv_count ((_ :: _) ++ _) = _
      rw [recv_count_append]
      simp only [recv_count, hrc]
  · simp [handle_client_step, handle_request, readClientRequest]

/-- C6 amended, at the request of one newline. -/
theorem newline_only_request_witness :
    "400 Bad Request\n\n".toList ∈
      sent_data (handle_client (fun _ => .open_fails) [.bytes "\n".toList] [.accept 100]
        { }).events ∧
    (handle_client (fun _ => .open_fails) [.bytes "\n".toList] [.accept 100] { }).ret
      = some .ERROR_ARGUMENTOS :=
  have h := (newline_only_request_gets_400 (fun _ => .open_fails) (.bytes "\n".toList) []
    [.accept 100] { } "\n".toList (by decide) (by decide) (by decide)).1
  ⟨h.1, h.2.2.2⟩

/-- C6 as stated fails when zero bytes are received: `handle_client` makes no `send` call,
so no `400 Bad Request` header goes out. -/
theorem zero_bytes_counterexample :
    "400 Bad Request\n\n".toList ∉
      sent_data (handle_client (fun _ => .open_fails) [.bytes []]
        [.accept 100, .accept 100, .accept 100] { }).events ∧
    sent_data (handle_client (fun _ => .open_fails) [.bytes []]
        [.accept 100, .accept 100, .accept 100] { }).events = [] := by
  decide

/-- C7. For every request whose file `read_file` does not map, whichever of the three
failures it is, `handle_client` returns exactly the code of `read_file`; it sends the header
`HTTP/1.1 404 Not Found` (followed by two newlines); every `send` it makes is that header
or, when verbose, one of the two trace lines, so no chunk of a body is sent, and with
verbose off the header is its only `send`; its last call closes the client socket; and it
reads no other request. The socket answers its `send` calls (one, or three when verbose). -/
theorem unreadable_file_gets_404 (fs : Str → FileResult) (r : RecvResult)
    (recvs : List RecvResult) (sends : List SendResult) (args : Args) (raw : Str)
    (hr : readClientRequest r args.archivo = (.SUCCESS, raw))
    (h1 : remove_newlines raw ≠ [])
    (h2 : remove_newlines raw ≠ "close".toList)
    (hf : (read_file fs (request_path args.directorio (remove_newlines raw))).2 ≠ .SUCCESS)
    (hs : (if args.verbose then 3 else 1) ≤ sends.length) :
    (handle_client fs (r :: recvs) sends args).ret =
      some (read_file fs (request_path args.directorio (remove_newlines raw))).2 ∧
    "HTTP/1.1 404 Not Found\n\n".toList ∈
      sent_data (handle_client fs (r :: recvs) sends args).events ∧
    (∀ d ∈ sent_data (handle_client fs (r :: recvs) sends args).events,
      d = "HTTP/1.1 404 Not Found\n\n".toList ∨
        (args.verbose = true ∧
          (d = open_trace (without_GET (remove_newlines raw)) ∨
            d = close_trace (without_GET (remove_newlines raw)) 0))) ∧
    (args.verbose = false →
      sent_data (handle_client fs (r :: recvs) sends args).events =
        ["HTTP/1.1 404 Not Found\n\n".toList]) ∧
    (handle_client fs (r :: recvs) sends args).events.getLast? = some .close_client ∧
    recv_count (handle_client fs (r :: recvs) sends args).events = 1 := by
  obtain ⟨⟨e, he⟩, hmem, hall, hq1, hrc⟩ := send_response_header_only sends
    "HTTP/1.1 404 Not Found\n".toList
    { args with archivo := (es_direccion (remove_newlines raw)).2 } hs
  have hq := handle_request_not_found fs r sends args raw hr h2 h1 hf e he
  have hc := handle_client_of_returned fs r recvs sends args _ (by rw [hq])
  have hname : (es_direccion (remove_newlines raw)).2 = without_GET (remove_newlines raw) := by
    rw [es_direccion_eq]
  rw [hc, hq]
  have hsd : ∀ (p : Str) (evs : List Event),
      sent_data (Event.recv r :: Event.read_file p :: evs ++ [Event.close_client])
        = sent_data evs := by
    intro p evs
    show sent_data ((_ :: _ :: _) ++ _) = _
    rw [sent_data_append]
    simp [sent_data]
  refine ⟨rfl, ?_, ?_, ?_, ?_, ?_⟩
  · show _ ∈ sent_data _
    rw [hsd]; exact hmem
  · show ∀ d ∈ sent_data _, _
    rw [hsd]
    intro d hd
    rcases hall d hd with h | ⟨hv, h⟩
    · exact Or.inl h
    · rw [← hname]
      exact Or.inr ⟨hv, h⟩
  · show _ → sent_data _ = _
    rw [hsd]; exact hq1
  · show List.getLast? ((_ :: _ :: _) ++ _) = _
    rw [List.getLast?_append]
    rfl
  · show recv_count ((_ :: _ :: _) ++ _) = _
    rw [recv_count_append]
    simp only [recv_count, hrc]

/-- C7 at a file whose `mmap` fails: the code is `ERROR_AL_MAPEAR_ARCHIVO` and the only
`send` is the 404 header. -/
theorem unreadable_file_witness :
    (handle_client (fun _ => .mmap_fails) [.bytes "empty.txt\n".toList] [.accept 100]
      { directorio := "/srv".toList }).ret = some .ERROR_AL_MAPEAR_ARCHIVO ∧
    sent_data (handle_client (fun _ => .mmap_fails) [.bytes "empty.txt\n".toList] [.accept 100]
      { directorio := "/srv".toList }).events = ["HTTP/1.1 404 Not Found\n\n".toList] :=
  have h := unreadable_file_gets_404 (fun _ => .mmap_fails) (.bytes "empty.txt\n".toList) []
    [.accept 100] { directorio := "/srv".toList } "empty.txt\n".toList
    (by decide) (by decide) (by decide) (by decide) (by decide)
  ⟨h.1, h.2.2.2.1 rfl⟩

/-- C8 fails on the code. The header of the 200 response for `hello.txt` meets a connection
reset: `send_response` returns `ERROR_LEVE_AL_ENVIAR`, and `handle_client`, which drops that
value, calls `recv` again on the same socket, serves the request `close` it reads there and
returns `SUCCESS`. -/
theorem send_failure_does_not_end_the_connection :
    (handle_client
      (fun p => if p = "/tmp/docroot/hello.txt".toList then .mapped "hi\n".toList
        else .open_fails)
      [.bytes "hello.txt\n".toList, .bytes "close\n".toList] [.error true]
      { directorio := "/tmp/docroot".toList }).events =
      [.recv (.bytes "hello.txt\n".toList), .read_file "/tmp/docroot/hello.txt".toList,
        .send "HTTP/1.1 200 OK\nContent-Length: 3\n\n".toList (.error true),
        .recv (.bytes "close\n".toList), .close_client] ∧
    (handle_client
      (fun p => if p = "/tmp/docroot/hello.txt".toList then .mapped "hi\n".toList
        else .open_fails)
      [.bytes "hello.txt\n".toList, .bytes "close\n".toList] [.error true]
      { directorio := "/tmp/docroot".toList }).ret = some .SUCCESS ∧
    (send_response [.error true] "HTTP/1.1 200 OK\nContent-Length: 3\n".toList
      { directorio := "/tmp/docroot".toList, archivo := "hello.txt".toList }
      "hi\n\n".toList).ret = some .ERROR_LEVE_AL_ENVIAR := by
  decide

/-- C9 fails on the code. A client asks for a file that cannot be opened: `start_server`
terminates with `ERROR_AL_ABRIR_ARCHIVO`, whose value is 13, and `main` returns 0. -/
theorem main_returns_zero_after_fatal_error :
    (start_server (fun _ => .open_fails)
      ⟨true, true, [some ⟨[.bytes "nofile\n".toList], [.accept 100]⟩]⟩
      { directorio := "/srv".toList }).ret = some .ERROR_AL_ABRIR_ARCHIVO ∧
    ErrorCode.ERROR_AL_ABRIR_ARCHIVO.toNat = 13 ∧
    main (fun _ => .open_fails)
      ⟨true, true, [some ⟨[.bytes "nofile\n".toList], [.accept 100]⟩]⟩
      ⟨["docserver".toList], "/srv".toList, none, none, fun _ => none⟩ = some (.returned 0) := by
  decide

/-- C10. Once the server listens, for every script of `accept` outcomes `pre ++ some c ::
post` in which every connection of `pre` is handled with `SUCCESS` (failed `accept` calls
are skipped) and `handle_client` returns a code `e` other than `SUCCESS` for `c`:
`start_server` returns exactly `e`, and it has called `accept` once for each entry of `pre`
and once for `c`, so never again after `c`, whatever `post` holds. After the connections of
`pre` the loop goes on accepting: it behaves on any further script as a loop started
afresh. -/
theorem server_stops_at_first_failing_client (fs : Str → FileResult) (net : Net)
    (pre post : List (Option Conn)) (c : Conn) (args args2 : Args) (e : ErrorCode)
    (hsock : net.socket_ok = true) (hlisten : net.listen_ok = true)
    (hacc : net.accepts = pre ++ some c :: post)
    (hpre : served fs pre args = some args2)
    (hc : (handle_client fs c.recvs c.sends args2).ret = some e)
    (he : e ≠ .SUCCESS) :
    (start_server fs net args).ret = some e ∧
    accept_count (start_server fs net args).events = pre.length + 1 ∧
    (∀ tail, (accept_loop fs (pre ++ tail) args).ret = (accept_loop fs tail args2).ret) := by
  obtain ⟨i1, -, evs, i3, i4⟩ :=
    accept_loop_after_served fs pre args args2 hpre (some c :: post)
  have hone := accept_loop_failure fs c post args2 e hc he
  have hcount : accept_count (accept_loop fs (some c :: post) args2).events = 1 := by
    rw [hone]
    show accept_count ((_ :: _) ++ _) = _
    rw [accept_count_append]
    simp [accept_count, accept_count_handle_client]
  have hstart : start_server fs net args =
      ⟨.make_socket (args.puerto % 65536).toNat true :: .listen true ::
          (accept_loop fs (pre ++ some c :: post) args).events,
        (accept_loop fs (pre ++ some c :: post) args).args,
        (accept_loop fs (pre ++ some c :: post) args).ret⟩ := by
    simp only [start_server, hsock, hlisten, listen_connection, ErrorCode.toNat, if_true,
      ne_eq, not_true_eq_false, if_false, hacc]
  rw [hstart]
  refine ⟨?_, ?_, fun tail => (accept_loop_after_served fs pre args args2 hpre tail).1⟩
  · show (accept_loop fs (pre ++ some c :: post) args).ret = _
    rw [i1, hone]
  · show accept_count (_ :: _ :: (accept_loop fs (pre ++ some c :: post) args).events) = _
    rw [i4]
    simp only [accept_count, accept_count_append, i3, hcount]

/-- C10 at a failed `accept`, a client that sends `close`, a client that asks for a missing
file, and a fourth client never accepted. -/
theorem server_stops_witness :
    (start_server (fun _ => .open_fails)
      ⟨true, true, [none, some ⟨[.bytes "close\n".toList], []⟩,
        some ⟨[.bytes "nofile\n".toList], [.accept 100]⟩,
        some ⟨[.bytes "close\n".toList], []⟩]⟩ { }).ret = some .ERROR_AL_ABRIR_ARCHIVO ∧
    accept_count (start_server (fun _ => .open_fails)
      ⟨true, true, [none, some ⟨[.bytes "close\n".toList], []⟩,
        some ⟨[.bytes "nofile\n".toList], [.accept 100]⟩,
        some ⟨[.bytes "close\n".toList], []⟩]⟩ { }).events = 3 :=
  have h := server_stops_at_first_failing_client (fun _ => .open_fails)
    ⟨true, true, [none, some ⟨[.bytes "close\n".toList], []⟩,
        some ⟨[.bytes "nofile\n".toList], [.accept 100]⟩,
        some ⟨[.bytes "close\n".toList], []⟩]⟩
    [none, some ⟨[.bytes "close\n".toList], []⟩] [some ⟨[.bytes "close\n".toList], []⟩]
    ⟨[.bytes "nofile\n".toList], [.accept 100]⟩ { } { archivo := "close".toList }
    .ERROR_AL_ABRIR_ARCHIVO rfl rfl rfl (by decide) (by decide) (by decide)
  ⟨h.1, h.2.1⟩

/-- X1. Whatever the requests and the socket, `handle_client` returns neither
`ERROR_LEVE_AL_ENVIAR` nor `ERROR_AL_ENVIAR`: the value of `send_response` is dropped at
each of its three calls. -/
theorem handle_client_never_returns_a_send_error (fs : Str → FileResult) :
    ∀ (recvs : List RecvResult) (sends : List SendResult) (args : Args),
      (handle_client fs recvs sends args).ret ≠ some .ERROR_LEVE_AL_ENVIAR ∧
      (handle_client fs recvs sends args).ret ≠ some .ERROR_AL_ENVIAR := by
  intro recvs
  induction recvs with
  | nil => intro sends args; simp [handle_client]
  | cons r recvs ih =>
    intro sends args
    rw [handle_client_step]
    split
    · simp
    · rename_i e he
      have := handle_request_code fs r sends args e he
      simp only [is_send_error, not_or] at this
      simp only [ne_eq, Option.some.injEq]
      exact this
    · exact ih _ _

/-- X2. When the arguments are parsed with `SUCCESS` and without `--help`, `main` returns 0
whatever code `start_server` returns. -/
theorem main_returns_zero_whatever_start_server_returns (fs : Str → FileResult) (net : Net)
    (p : Process) (puerto : Int) (args : Args) (e : ErrorCode)
    (hport : (match p.env_port with
      | some env_port => p.stoi env_port
      | none => some 8080) = some puerto)
    (hparse : parse_args p.stoi p.env_basedir p.argv { directorio := p.cwd, puerto := puerto }
      = some (.SUCCESS, args))
    (hhelp : args.help = false)
    (hret : (start_server fs net args).ret = some e) :
    main fs net p = some (.returned 0) := by
  unfold main
  dsimp only
  rw [hport]
  dsimp only
  rw [hparse]
  simp [hhelp, hret, ErrorCode.toNat]

/-- X2 at a verbose server whose first client asks for a missing file. -/
theorem main_returns_zero_witness :
    main (fun _ => .open_fails)
      ⟨true, true, [some ⟨[.bytes "nofile\n".toList], [.accept 100, .accept 100, .accept 100]⟩]⟩
      ⟨["docserver".toList, "-v".toList], "/srv".toList, none, none, fun _ => none⟩
      = some (.returned 0) :=
  main_returns_zero_whatever_start_server_returns (fun _ => .open_fails)
    ⟨true, true, [some ⟨[.bytes "nofile\n".toList], [.accept 100, .accept 100, .accept 100]⟩]⟩
    ⟨["docserver".toList, "-v".toList], "/srv".toList, none, none, fun _ => none⟩
    8080 { directorio := "/srv".toList, verbose := true } .ERROR_AL_ABRIR_ARCHIVO
    rfl (by decide) rfl (by decide)

/-- X3. With verbose on, a request whose file is mapped with content `c` makes one pass
through the loop of `handle_client` that goes on to the next request and whose calls are:
`recv`, `read_file`, the `open:` trace line, the header `HTTP/1.1 200 OK` with no
`Content-Length`, the chunks of the body `c` followed by a newline, and the `read:` and
`close:` trace lines, where the number of bytes read is given as the length of `c` plus
one. The socket takes at least one byte in every `send` of the body and answers every
call. -/
theorem verbose_response_framing (fs : Str → FileResult) (r : RecvResult)
    (t1 : SendResult) (cap : Nat) (rest : List SendResult) (args : Args) (raw c : Str)
    (hv : args.verbose = true)
    (hr : readClientRequest r args.archivo = (.SUCCESS, raw))
    (h1 : remove_newlines raw ≠ [])
    (h2 : remove_newlines raw ≠ "close".toList)
    (hf : fs (request_path args.directorio (remove_newlines raw)) = .mapped c)
    (hrest : ∀ s ∈ rest, ∃ k, 1 ≤ k ∧ s = SendResult.accept k)
    (hlen : c.length + 2 ≤ rest.length) :
    (handle_request fs r (t1 :: .accept cap :: rest) args).step = .next ∧
    written (send_body (c ++ "\n".toList) rest 0).events = c ++ "\n".toList ∧
    ∃ t3, (handle_request fs r (t1 :: .accept cap :: rest) args).events =
      [.recv r, .read_file (request_path args.directorio (remove_newlines raw)),
        .send (open_trace (without_GET (remove_newlines raw))) t1,
        .send "HTTP/1.1 200 OK\n\n".toList (.accept cap)] ++
      (send_body (c ++ "\n".toList) rest 0).events ++
      [.send (close_trace (without_GET (remove_newlines raw)) (c.length + 1)) t3] := by
  have hbl : (c ++ "\n".toList).length = c.length + 1 := by simp
  obtain ⟨i1, i2, -, -⟩ := send_body_spec (c ++ "\n".toList) rest 0 (Nat.zero_le _) hrest
    (by omega)
  have hleft := send_body_sends_left (c ++ "\n".toList) rest 0 hrest
  obtain ⟨t3, left, hl⟩ : ∃ t3 left, (send_body (c ++ "\n".toList) rest 0).sends = t3 :: left := by
    cases h : (send_body (c ++ "\n".toList) rest 0).sends with
    | nil => rw [h] at hleft; simp at hleft; omega
    | cons t3 left => exact ⟨t3, left, rfl⟩
  have hname : (es_direccion (remove_newlines raw)).2 = without_GET (remove_newlines raw) := by
    rw [es_direccion_eq]
  have hsr : send_response (t1 :: .accept cap :: rest) (ok_header args.verbose c)
      { args with archivo := (es_direccion (remove_newlines raw)).2 } (c ++ "\n".toList) =
      ⟨[.send (open_trace (without_GET (remove_newlines raw))) t1] ++
        .send ("HTTP/1.1 200 OK\n".toList ++ "\n".toList) (.accept cap) ::
        (send_body (c ++ "\n".toList) rest 0).events ++
        [.send (close_trace (without_GET (remove_newlines raw)) (c.length + 1)) t3],
        left, some .SUCCESS⟩ := by
    simp only [send_response, ok_header, hv, if_true, send_unchecked, i1, hl, hname, hbl]
  have hq := handle_request_found fs r (t1 :: .accept cap :: rest) args raw c hr h2 h1 hf
    .SUCCESS (by rw [hsr])
  rw [hq, hsr]
  refine ⟨rfl, by rw [i2, List.drop_zero], t3, ?_⟩
  simp

/-- X3 at `hello.txt` holding `hi\n` under `/tmp/docroot`, verbose on. -/
theorem verbose_response_witness :
    (handle_request
      (fun p => if p = "/tmp/docroot/hello.txt".toList then .mapped "hi\n".toList
        else .open_fails)
      (.bytes "hello.txt\n".toList)
      [.accept 100, .accept 100, .accept 1024, .accept 1024, .accept 1024, .accept 1024,
        .accept 1024]
      { directorio := "/tmp/docroot".toList, verbose := true }).step = .next :=
  (verbose_response_framing
    (fun p => if p = "/tmp/docroot/hello.txt".toList then .mapped "hi\n".toList
      else .open_fails)
    (.bytes "hello.txt\n".toList) (.accept 100) 100
    [.accept 1024, .accept 1024, .accept 1024, .accept 1024, .accept 1024]
    { directorio := "/tmp/docroot".toList, verbose := true } "hello.txt\n".toList
    "hi\n".toList rfl (by decide) (by decide) (by decide) (by decide)
    (fun s hs => ⟨1024, by decide, by simpa using hs⟩) (by decide)).1

end Docserver
